import Mathlib

/-!
Verification of the dataloc package (go-testutil): a shallow embedding of
src/dataloc/dataloc.go. The package locates the source line of a table-driven
test case from its key string by parsing the caller's source file, building a
binding index in one AST traversal, and matching the `dataloc.L(...)` call
site in a second traversal.

The embedding mirrors the Go source function by function. The Go parser itself
(go/parser) is a host-language capability; the embedding therefore starts from
the parse result: an abstract syntax tree over the closed set of node kinds the
algorithm inspects. Machine-level effects (runtime.Caller, os.Getwd,
filepath.Rel, reading the file from disk) are supplied by an explicit
environment record, one field per effect, each returning exactly the data the
Go call returns.
-/

namespace Dataloc

/-- Kind tag of a Go basic literal token (go/token kinds used by the source). -/
inductive LitKind where
  | string
  | int
  | float
  | char
  | imag
deriving DecidableEq, Repr

/-- A Go identifier as the algorithm sees it: its name and its resolved
object (`*ast.Object`), modelled as an optional handle; `none` is a nil
object (unresolved identifier, e.g. the blank identifier). -/
structure GoIdent where
  name : String
  obj : Option Nat
deriving DecidableEq, Repr

/-- Expression nodes of go/ast that dataloc.go inspects. Every constructor
carries the 1-based source line of the node's position (`fset.Position(n.Pos()).Line`).
`basicLit.value` is the raw source token, exactly as `ast.BasicLit.Value`. -/
inductive Expr where
  | ident (line : Nat) (name : String) (obj : Option Nat)
  | selector (line : Nat) (x : Expr) (sel : String)
  | basicLit (line : Nat) (kind : LitKind) (value : String)
  | compositeLit (line : Nat) (typ : Option Expr) (elts : List Expr)
  | keyValue (line : Nat) (key : Expr) (value : Expr)
  | call (line : Nat) (fn : Expr) (args : List Expr)
  | arrayType (line : Nat) (elt : Expr)
  | mapType (line : Nat) (key : Expr) (value : Expr)
  | structType (line : Nat) (fields : List (List GoIdent × Expr))
deriving Repr

/-- Source line of a node, `fset.Position(n.Pos()).Line`. -/
def Expr.line : Expr → Nat
  | .ident l _ _ => l
  | .selector l _ _ => l
  | .basicLit l _ _ => l
  | .compositeLit l _ _ => l
  | .keyValue l _ _ => l
  | .call l _ _ => l
  | .arrayType l _ => l
  | .mapType l _ _ => l
  | .structType l _ => l

/-- One `ast.ValueSpec` of a `var` declaration: declared names and
initializer expressions. -/
structure ValueSpec where
  names : List GoIdent
  values : List Expr
deriving Repr

/-- One `ast.TypeSpec` of a `type` declaration. -/
structure TypeSpec where
  name : GoIdent
  typ : Expr
deriving Repr

/-- An `ast.GenDecl`, restricted to the two token kinds the source inspects
(`token.VAR` and `token.TYPE`). -/
inductive GenDeclM where
  | varDecl (specs : List ValueSpec)
  | typeDecl (specs : List TypeSpec)
deriving Repr

/-- Statement nodes the traversals can encounter: a range statement (with
optional key/value expressions, as in go/ast), a plain assignment
(covers both `=` and `:=`; the source never looks at the token), an
expression statement, and a declaration statement wrapping a GenDecl. -/
inductive Stmt where
  | rangeS (key value : Option Expr) (x : Expr) (body : List Stmt)
  | assignS (lhs rhs : List Expr)
  | exprS (e : Expr)
  | declS (g : GenDeclM)
deriving Repr

/-- A top-level declaration: a function (only its body matters to the
traversals) or a GenDecl. -/
inductive Decl where
  | funcD (body : List Stmt)
  | genD (g : GenDeclM)
deriving Repr

/-- A parsed file, `*ast.File`: its top-level declarations. -/
abbrev File := List Decl

/-- The map type used for all four binding-index mappings:
`map[*ast.Object]ast.Expr`. Keys are object handles (`none` = nil object).
Represented as an association list where insertion prepends, so lookup of the
most recent write models Go map assignment (last write wins). -/
abbrev AMap := List (Option Nat × Expr)

/-- Go map assignment `m[k] = v`. -/
def AMap.insert (m : AMap) (k : Option Nat) (v : Expr) : AMap := (k, v) :: m

/-- Go map read `m[k]`: the most recently written value for `k`, or none
(Go's nil) when `k` was never written. -/
def AMap.lookup (m : AMap) (k : Option Nat) : Option Expr :=
  (m.find? (fun p => decide (p.1 = k))).map (fun p => p.2)

/-- The four mappings built by the first traversal of `loc`
(dataloc.go lines 75-82). -/
structure Index where
  typeDecl : AMap
  varInit : AMap
  rangeValue : AMap
  rangeKey : AMap
deriving Repr

def Index.empty : Index := ⟨[], [], [], []⟩

def Index.withTypeDecl (i : Index) (m : AMap) : Index :=
  ⟨m, i.varInit, i.rangeValue, i.rangeKey⟩

def Index.withVarInit (i : Index) (m : AMap) : Index :=
  ⟨i.typeDecl, m, i.rangeValue, i.rangeKey⟩

def Index.withRangeValue (i : Index) (m : AMap) : Index :=
  ⟨i.typeDecl, i.varInit, m, i.rangeKey⟩

def Index.withRangeKey (i : Index) (m : AMap) : Index :=
  ⟨i.typeDecl, i.varInit, i.rangeValue, m⟩

/-- The RangeStmt rule of the first traversal (dataloc.go lines 85-91):
if the value (resp. key) position holds an identifier, map its object to the
ranged-over expression. Value is written first, then key, as in the source. -/
def rangeWrite (idx : Index) (key value : Option Expr) (x : Expr) : Index :=
  let idx1 :=
    match value with
    | some (.ident _ _ obj) => idx.withRangeValue (idx.rangeValue.insert obj x)
    | _ => idx
  match key with
  | some (.ident _ _ obj) => idx1.withRangeKey (idx1.rangeKey.insert obj x)
  | _ => idx1

/-- The ValueSpec rule of the first traversal (dataloc.go lines 97-101):
for each declared name at position i, record the initializer at position i
only when `i < len(values) - 1` (Go int arithmetic; this is the rule exactly
as written in the source). -/
def varSpecWrite (idx : Index) (vs : ValueSpec) : Index :=
  vs.names.enum.foldl
    (fun acc p =>
      if (p.1 : Int) < (vs.values.length : Int) - 1 then
        match vs.values.get? p.1 with
        | some v => acc.withVarInit (acc.varInit.insert p.2.obj v)
        | none => acc
      else acc)
    idx

/-- The GenDecl rule of the first traversal (dataloc.go lines 93-110):
`var` specs go through the ValueSpec rule, `type` specs map the type name's
object to the declared type expression. -/
def genWrite (idx : Index) : GenDeclM → Index
  | .varDecl specs => specs.foldl varSpecWrite idx
  | .typeDecl specs =>
      specs.foldl (fun acc ts => acc.withTypeDecl (acc.typeDecl.insert ts.name.obj ts.typ)) idx

/-- The AssignStmt rule of the first traversal (dataloc.go lines 112-123):
for each identifier on the left, pair positionally when the sides have equal
length, share a single right-hand side, and otherwise write nothing
(the debug-only branch). -/
def assignWrite (idx : Index) (lhs rhs : List Expr) : Index :=
  lhs.enum.foldl
    (fun acc p =>
      match p.2 with
      | .ident _ _ obj =>
          if lhs.length = rhs.length then
            match rhs.get? p.1 with
            | some v => acc.withVarInit (acc.varInit.insert obj v)
            | none => acc
          else if rhs.length = 1 then
            match rhs.get? 0 with
            | some v => acc.withVarInit (acc.varInit.insert obj v)
            | none => acc
          else acc
      | _ => acc)
    idx

mutual
/-- First traversal over one statement: apply the node's rule, then visit
children (pre-order, as ast.Inspect does; the callback always returns true). -/
def idxStmt (idx : Index) : Stmt → Index
  | .rangeS key value x body => idxStmts (rangeWrite idx key value x) body
  | .assignS lhs rhs => assignWrite idx lhs rhs
  | .exprS _ => idx
  | .declS g => genWrite idx g

/-- First traversal over a statement list, in order. -/
def idxStmts (idx : Index) : List Stmt → Index
  | [] => idx
  | s :: rest => idxStmts (idxStmt idx s) rest
end

/-- First traversal over one top-level declaration. -/
def idxDecl (idx : Index) : Decl → Index
  | .funcD body => idxStmts idx body
  | .genD g => genWrite idx g

/-- The whole first `ast.Inspect` of `loc` (dataloc.go lines 84-127): build
the four mappings in one traversal of the file. -/
def buildIndex (f : File) : Index := f.foldl idxDecl Index.empty

/-- `isSelector` (dataloc.go lines 197-204): an expression of the form
`x.sel` where `x` is an identifier; returns the identifier's name, its
object, and the selected name. -/
def isSelector : Expr → Option (String × Option Nat × String)
  | .selector _ (.ident _ name obj) sel => some (name, obj, sel)
  | _ => none

/-- `isMethodCall` (dataloc.go lines 186-195): a call expression whose callee
is written as the selector `obj.fn`; returns the call node itself. -/
def isMethodCall (n : Expr) (obj fn : String) : Option Expr :=
  match n with
  | .call l f args =>
      match isSelector f with
      | some (name, _, sel) =>
          if name = obj ∧ sel = fn then some (.call l f args) else none
      | none => none
  | _ => none

/-- Models Go's strconv.Quote on one character: the standard escapes, literal
printable ASCII, and a hex escape for other control bytes. strconv.Quote is
standard-library code outside this repository; this reproduces its behaviour
on the ASCII strings the development evaluates it on (non-ASCII printable
characters pass through, as they do for strconv.Quote). -/
def goQuoteChar (c : Char) : String :=
  if c = '"' then "\\\""
  else if c = '\\' then "\\\\"
  else if c = '\n' then "\\n"
  else if c = '\t' then "\\t"
  else if c = '\r' then "\\r"
  else if c.toNat = 7 then "\\a"
  else if c.toNat = 8 then "\\b"
  else if c.toNat = 12 then "\\f"
  else if c.toNat = 11 then "\\v"
  else if 32 ≤ c.toNat ∧ c.toNat < 127 then String.singleton c
  else if c.toNat < 256 then
    let hex := fun n => String.singleton ("0123456789abcdef".toList.getD n '0')
    "\\x" ++ hex (c.toNat / 16) ++ hex (c.toNat % 16)
  else String.singleton c

/-- Models Go's strconv.Quote: a double-quoted token rendering the string
with Go's own quoting rules. -/
def goQuote (s : String) : String :=
  "\"" ++ String.join (s.toList.map goQuoteChar) ++ "\""

/-- Resolve the simple Go escapes inside a double-quoted literal body. -/
def unescapeChars : List Char → Option (List Char)
  | [] => some []
  | '\\' :: c :: rest =>
      (match c with
       | 'n' => some '\n'
       | 't' => some '\t'
       | 'r' => some '\r'
       | '\\' => some '\\'
       | '"' => some '"'
       | 'a' => some (Char.ofNat 7)
       | 'b' => some (Char.ofNat 8)
       | 'f' => some (Char.ofNat 12)
       | 'v' => some (Char.ofNat 11)
       | _ => none).bind
        (fun d => (unescapeChars rest).map (fun r => d :: r))
  | ['\\'] => none
  | c :: rest => (unescapeChars rest).map (fun r => c :: r)

/-- Models Go's strconv.Unquote (standard library, outside this repository)
on the token forms appearing here: a back-quoted raw string literal evaluates
to its body, a double-quoted literal evaluates by resolving the simple
escapes. This is the evaluated string value of a literal token, used only to
state that the source never compares evaluated values. -/
def goUnquote (tok : String) : Option String :=
  let bq := Char.ofNat 96
  match tok.toList with
  | c :: rest =>
      if c = bq then
        if rest ≠ [] ∧ rest.getLast? = some bq then some (String.mk rest.dropLast) else none
      else if c = '"' then
        if rest ≠ [] ∧ rest.getLast? = some '"' then (unescapeChars rest.dropLast).map String.mk
        else none
      else none
  | [] => none

/-- `isStringLiteral` (dataloc.go lines 275-284): the node is a basic literal,
its kind is STRING, and its raw token equals `strconv.Quote(s)` — a
byte-for-byte token comparison. -/
def isStringLiteral (n : Expr) (s : String) : Bool :=
  match n with
  | .basicLit _ kind v => decide (kind = LitKind.string) && decide (v = goQuote s)
  | _ => false

/-- The loop of `findStructFieldIndex`: scan field groups in order, returning
the group counter `i` for the first group whose name list contains `name`. -/
def fieldIndexLoop (name : String) : List (List GoIdent × Expr) → Int → Int
  | [], _ => -1
  | fld :: rest, i =>
      if fld.1.any (fun id => decide (id.name = name)) then i
      else fieldIndexLoop name rest (i + 1)

/-- `findStructFieldIndex` (dataloc.go lines 286-301): for a struct type,
the index `i` of the first entry of `Fields.List` containing a name equal to
`name` (the loop counter ranges over field groups); `-1` otherwise. -/
def findStructFieldIndex (t : Expr) (name : String) : Int :=
  match t with
  | .structType _ fields => fieldIndexLoop name fields 0
  | _ => -1

/-- The inner field loop of `findTestCaseItem` (dataloc.go lines 251-269)
over one struct-literal entry's elements, with `i` the element counter:
a keyed field hits when its key identifier equals `key` and its value
quote-matches `value`; a bare basic literal hits when the element counter
equals `findStructFieldIndex` of `key` and the literal quote-matches `value`. -/
def structFieldsHit (ttype : Expr) (key value : String) : Nat → List Expr → Bool
  | _, [] => false
  | i, field :: rest =>
      (match field with
       | .keyValue _ (.ident _ name _) v => decide (name = key) && isStringLiteral v value
       | .basicLit bl kind lv =>
           decide (findStructFieldIndex ttype key = (i : Int))
             && isStringLiteral (.basicLit bl kind lv) value
       | _ => false)
      || structFieldsHit ttype key value (i + 1) rest

/-- The per-entry body of the entry loop of `findTestCaseItem`
(dataloc.go lines 233-269): a key-value entry whose key is a basic literal
quote-matching `value` returns the key-value node; otherwise a composite
literal entry with a hitting field returns the entry node; anything else
is no match for this entry. -/
def entryMatch (ttype : Expr) (key value : String) (tc : Expr) : Option Expr :=
  let kvHit : Option Expr :=
    match tc with
    | .keyValue kl (.basicLit bl kind kv) vv =>
        if isStringLiteral (.basicLit bl kind kv) value then
          some (.keyValue kl (.basicLit bl kind kv) vv)
        else none
    | _ => none
  match kvHit with
  | some n => some n
  | none =>
      match tc with
      | .compositeLit cl cty celts =>
          if structFieldsHit ttype key value 0 celts then some (.compositeLit cl cty celts)
          else none
      | _ => none

/-- The entry loop of `findTestCaseItem`: entries in declaration order, first
match returned. -/
def findInElts (ttype : Expr) (key value : String) : List Expr → Option Expr
  | [] => none
  | tc :: rest =>
      match entryMatch ttype key value tc with
      | some n => some n
      | none => findInElts ttype key value rest

/-- `findTestCaseItem` (dataloc.go lines 206-273). The argument is the value
of a Go map read, so `none` stands for Go's nil expression; any non-composite
(including nil) returns no match. For an array-typed literal the element type
is resolved through the TypeDecl mapping when it is an identifier (failure to
resolve logs and returns nil); a map-typed literal uses the map type itself;
any other type returns nil. -/
def findTestCaseItem (init : Option Expr) (key value : String) (typeDecl : AMap) : Option Expr :=
  match init with
  | some (.compositeLit _ ty elts) =>
      match ty with
      | some (.arrayType _al elt) =>
          match elt with
          | .ident _ _ ob =>
              match typeDecl.lookup ob with
              | none => none
              | some t => findInElts t key value elts
          | _ => findInElts elt key value elts
      | some (.mapType ml k v) => findInElts (.mapType ml k v) key value elts
      | _ => none
  | _ => none

/-- Result of visiting a subtree in the second traversal: `.error` is a
propagated Go panic; otherwise the position of the last test-case node a
successful match wrote, if any. The mutable string `loc` of the source is
recovered from this at the end of the traversal. -/
abbrev InspectRes := Except Unit (Option (String × Nat))

/-- Sequencing of the mutable `loc` writes: the later subtree's write, when
present, overwrites the earlier one (last write wins). -/
def lastOf (r1 r2 : Option (String × Nat)) : Option (String × Nat) :=
  match r2 with
  | some x => some x
  | none => r1

/-- The resolution performed at a matched `dataloc.L` call on its argument
(dataloc.go lines 146-177). A selector argument `ident.key` goes through
RangeValueSource; a bare identifier argument through RangeKeySource with the
identifier's own name as the key; the collection identifier is then read from
VarInit (a plain Go map read: absent means nil) and handed to
`findTestCaseItem`. Success returns the matched node's position
(`pos.Filename`, `pos.Line`). -/
def resolveArg (fileName : String) (idx : Index) (value : String) (arg : Expr) :
    Option (String × Nat) :=
  match isSelector arg with
  | some (_identName, identObj, key) =>
      match idx.rangeValue.lookup identObj with
      | some expr =>
          match expr with
          | .ident _ _ tObj =>
              match findTestCaseItem (idx.varInit.lookup tObj) key value idx.typeDecl with
              | some node => some (fileName, node.line)
              | none => none
          | _ => none
      | none => none
  | none =>
      match arg with
      | .ident _ name obj =>
          match idx.rangeKey.lookup obj with
          | some expr =>
              match expr with
              | .ident _ _ tObj =>
                  match findTestCaseItem (idx.varInit.lookup tObj) name value idx.typeDecl with
                  | some node => some (fileName, node.line)
                  | none => none
              | _ => none
          | none => none
      | _ => none

mutual
/-- Second traversal over one expression node, mirroring the callback of the
second `ast.Inspect` (dataloc.go lines 130-181): every node whose line is not
the caller's line just descends; a call node at the caller's line whose
callee is the selector `dataloc.L` takes `Args[0]` (a Go panic when the call
has no arguments), resolves it, and on success writes the position and skips
its children (the callback returns false); on failure it descends like any
other node. Children are visited in go/ast order. -/
def visitExpr (fileName : String) (tline : Nat) (value : String) (idx : Index) :
    Expr → InspectRes
  | .ident _ _ _ => .ok none
  | .basicLit _ _ _ => .ok none
  | .selector _ x _ => visitExpr fileName tline value idx x
  | .keyValue _ k v => do
      let r1 ← visitExpr fileName tline value idx k
      let r2 ← visitExpr fileName tline value idx v
      .ok (lastOf r1 r2)
  | .compositeLit _ ty elts => do
      let r1 ← visitOptExpr fileName tline value idx ty
      let r2 ← visitExprs fileName tline value idx elts
      .ok (lastOf r1 r2)
  | .call l f args =>
      if l = tline ∧ (isMethodCall (.call l f args) "dataloc" "L").isSome then
        match args.get? 0 with
        | none => .error ()
        | some arg =>
            match resolveArg fileName idx value arg with
            | some r => .ok (some r)
            | none => do
                let r1 ← visitExpr fileName tline value idx f
                let r2 ← visitExprs fileName tline value idx args
                .ok (lastOf r1 r2)
      else do
        let r1 ← visitExpr fileName tline value idx f
        let r2 ← visitExprs fileName tline value idx args
        .ok (lastOf r1 r2)
  | .arrayType _ elt => visitExpr fileName tline value idx elt
  | .mapType _ k v => do
      let r1 ← visitExpr fileName tline value idx k
      let r2 ← visitExpr fileName tline value idx v
      .ok (lastOf r1 r2)
  | .structType _ fields => visitFields fileName tline value idx fields

/-- Second traversal over an optional child (go/ast nil fields). -/
def visitOptExpr (fileName : String) (tline : Nat) (value : String) (idx : Index) :
    Option Expr → InspectRes
  | none => .ok none
  | some e => visitExpr fileName tline value idx e

/-- Second traversal over an expression list, in order. -/
def visitExprs (fileName : String) (tline : Nat) (value : String) (idx : Index) :
    List Expr → InspectRes
  | [] => .ok none
  | e :: rest => do
      let r1 ← visitExpr fileName tline value idx e
      let r2 ← visitExprs fileName tline value idx rest
      .ok (lastOf r1 r2)

/-- Second traversal over struct-type field groups (the field names are plain
identifiers and cannot be call expressions; their types are visited). -/
def visitFields (fileName : String) (tline : Nat) (value : String) (idx : Index) :
    List (List GoIdent × Expr) → InspectRes
  | [] => .ok none
  | (_, ty) :: rest => do
      let r1 ← visitExpr fileName tline value idx ty
      let r2 ← visitFields fileName tline value idx rest
      .ok (lastOf r1 r2)
end

/-- Second traversal over the expressions of `var` declaration specs (the
declared names are plain identifiers and cannot be call expressions). -/
def visitSpecs (fileName : String) (tline : Nat) (value : String) (idx : Index) :
    List ValueSpec → InspectRes
  | [] => .ok none
  | vs :: rest => do
      let r1 ← visitExprs fileName tline value idx vs.values
      let r2 ← visitSpecs fileName tline value idx rest
      .ok (lastOf r1 r2)

/-- Second traversal over the types of `type` declaration specs. -/
def visitTypeSpecs (fileName : String) (tline : Nat) (value : String) (idx : Index) :
    List TypeSpec → InspectRes
  | [] => .ok none
  | ts :: rest => do
      let r1 ← visitExpr fileName tline value idx ts.typ
      let r2 ← visitTypeSpecs fileName tline value idx rest
      .ok (lastOf r1 r2)

/-- Second traversal over a GenDecl. -/
def visitGen (fileName : String) (tline : Nat) (value : String) (idx : Index) :
    GenDeclM → InspectRes
  | .varDecl specs => visitSpecs fileName tline value idx specs
  | .typeDecl specs => visitTypeSpecs fileName tline value idx specs

mutual
/-- Second traversal over one statement. -/
def visitStmt (fileName : String) (tline : Nat) (value : String) (idx : Index) :
    Stmt → InspectRes
  | .rangeS key val x body => do
      let r1 ← visitOptExpr fileName tline value idx key
      let r2 ← visitOptExpr fileName tline value idx val
      let r3 ← visitExpr fileName tline value idx x
      let r4 ← visitStmts fileName tline value idx body
      .ok (lastOf (lastOf (lastOf r1 r2) r3) r4)
  | .assignS lhs rhs => do
      let r1 ← visitExprs fileName tline value idx lhs
      let r2 ← visitExprs fileName tline value idx rhs
      .ok (lastOf r1 r2)
  | .exprS e => visitExpr fileName tline value idx e
  | .declS g => visitGen fileName tline value idx g

/-- Second traversal over a statement list, in order. -/
def visitStmts (fileName : String) (tline : Nat) (value : String) (idx : Index) :
    List Stmt → InspectRes
  | [] => .ok none
  | s :: rest => do
      let r1 ← visitStmt fileName tline value idx s
      let r2 ← visitStmts fileName tline value idx rest
      .ok (lastOf r1 r2)
end

/-- Second traversal over one top-level declaration. -/
def visitDecl (fileName : String) (tline : Nat) (value : String) (idx : Index) :
    Decl → InspectRes
  | .funcD body => visitStmts fileName tline value idx body
  | .genD g => visitGen fileName tline value idx g

/-- Second traversal over the file's declarations, in order. -/
def visitDecls (fileName : String) (tline : Nat) (value : String) (idx : Index) :
    List Decl → InspectRes
  | [] => .ok none
  | d :: rest => do
      let r1 ← visitDecl fileName tline value idx d
      let r2 ← visitDecls fileName tline value idx rest
      .ok (lastOf r1 r2)

/-- The second `ast.Inspect` of `loc` with its result assembly
(dataloc.go lines 129-183): the mutable string starts as "(unknown)" and
every successful match overwrites it with
`fmt.Sprintf("%s:%d", pos.Filename, pos.Line)`; a Go panic during the
traversal propagates. -/
def inspectLoc (fileName : String) (tline : Nat) (value : String) (idx : Index)
    (f : File) : Except Unit String :=
  match visitDecls fileName tline value idx f with
  | .error e => .error e
  | .ok none => .ok "(unknown)"
  | .ok (some (fn, l)) => .ok (fn ++ ":" ++ toString l)

/-- One stack frame as `runtime.Caller` reports it: file, line, and the
success flag. When the requested depth exceeds the stack, `runtime.Caller`
returns ok = false with an empty file and line 0. -/
structure Frame where
  file : String
  line : Nat
  ok : Bool

/-- The machine environment of one `loc` call, one field per host-runtime
effect the source performs: `caller n` is `runtime.Caller(n)`; `getwd` is
`os.Getwd()` (`none` = error); `rel cwd file` is `filepath.Rel(cwd, file)`
(`none` = error); `parseFile path` is `parser.ParseFile` on the file at
`path` (`none` = read or parse error). -/
structure Env where
  caller : Nat → Frame
  getwd : Option String
  rel : String → String → Option String
  parseFile : String → Option File

/-- The error returns of `loc`, in the order the source can produce them. -/
inductive LocErr where
  | getwdErr
  | relErr
  | parseErr
deriving DecidableEq, Repr

/-- Outcome of `loc`: a returned string, an error return (whose string
component is always the empty string, `return "", err`), or a propagated
panic. -/
inductive LocOutcome where
  | ok (s : String)
  | err (e : LocErr)
  | panicked
deriving DecidableEq, Repr

/-- `loc` (dataloc.go lines 57-184). The ok flag of `runtime.Caller` is
discarded (`_, file, line, _ :=`), exactly as in the source; `os.Getwd` and
`filepath.Rel` failures return the error with an empty string; the file is
parsed, the binding index is built by the first traversal, and the second
traversal produces the result string. -/
def loc (value : String) (step : Nat) (env : Env) : LocOutcome :=
  match env.getwd with
  | none => .err .getwdErr
  | some cwd =>
      match env.rel cwd (env.caller step).file with
      | none => .err .relErr
      | some file =>
          match env.parseFile file with
          | none => .err .parseErr
          | some f =>
              match inspectLoc file (env.caller step).line value (buildIndex f) f with
              | .error _ => .panicked
              | .ok s => .ok s

/-- `L` (dataloc.go lines 32-35): `s, _ := loc(name, 2); return s`. The error
is dropped, so an error return yields the empty string; a panic inside `loc`
propagates to the caller, modelled as `none`. -/
def L (name : String) (env : Env) : Option String :=
  match loc name 2 env with
  | .ok s => some s
  | .err _ => some ""
  | .panicked => none

/-- `L3` (dataloc.go lines 37-40). -/
def L3 (name : String) (env : Env) : Option String :=
  match loc name 3 env with
  | .ok s => some s
  | .err _ => some ""
  | .panicked => none

/-- `L4` (dataloc.go lines 42-45). -/
def L4 (name : String) (env : Env) : Option String :=
  match loc name 4 env with
  | .ok s => some s
  | .err _ => some ""
  | .panicked => none

/-- `L5` (dataloc.go lines 47-50). -/
def L5 (name : String) (env : Env) : Option String :=
  match loc name 5 env with
  | .ok s => some s
  | .err _ => some ""
  | .panicked => none

/-- `L6` (dataloc.go lines 52-55). -/
def L6 (name : String) (env : Env) : Option String :=
  match loc name 6 env with
  | .ok s => some s
  | .err _ => some ""
  | .panicked => none

/-! Concrete sample files and environments, used to evaluate the embedding on
the scenarios named by the spec's testable properties. Object handles: each
declared identifier carries its own handle; the blank identifier and
unresolved identifiers carry none. -/

/-- First entry of the sample table, `{name: "a"}`, on line 11. -/
def entryA : Expr :=
  .compositeLit 11 none
    [.keyValue 11 (.ident 11 "name" none) (.basicLit 11 .string "\"a\"")]

/-- Second entry of the sample table, `{name: "b"}`, on line 12. -/
def entryB : Expr :=
  .compositeLit 12 none
    [.keyValue 12 (.ident 12 "name" none) (.basicLit 12 .string "\"b\"")]

/-- The sample table literal, `[]struct{ name string }{ {name:"a"}, {name:"b"} }`,
starting on line 10. -/
def tableAB : Expr :=
  .compositeLit 10
    (some (.arrayType 10 (.structType 10 [([⟨"name", none⟩], .ident 10 "string" none)])))
    [entryA, entryB]

/-- The sample file:
`testcases := tableAB; for _, tc := range testcases { dataloc.L(tc.name) }`
with the call on line 14. -/
def fileAB : File :=
  [.funcD
    [.assignS [.ident 10 "testcases" (some 1)] [tableAB],
     .rangeS (some (.ident 13 "_" none)) (some (.ident 13 "tc" (some 2)))
       (.ident 13 "testcases" (some 1))
       [.exprS (.call 14 (.selector 14 (.ident 14 "dataloc" none) "L")
          [.selector 14 (.ident 14 "tc" (some 2)) "name"])]]]

/-- Environment whose caller frame points at line 14 of the sample file; the
working directory resolves, the path relativizes, and parsing succeeds. -/
def envAB : Env :=
  ⟨fun _ => ⟨"/home/u/proj/x_test.go", 14, true⟩,
   some "/home/u/proj",
   fun cwd file =>
     if cwd = "/home/u/proj" ∧ file = "/home/u/proj/x_test.go" then some "x_test.go" else none,
   fun p => if p = "x_test.go" then some fileAB else none⟩

/-- The element type of the sample table, as resolved inside
`findTestCaseItem`. -/
def ttypeAB : Expr := .structType 10 [([⟨"name", none⟩], .ident 10 "string" none)]

/-- Environment identical to `envAB` except that the source file cannot be
read or parsed. -/
def envParseFail : Env :=
  ⟨fun _ => ⟨"/home/u/proj/x_test.go", 14, true⟩,
   some "/home/u/proj",
   fun cwd file =>
     if cwd = "/home/u/proj" ∧ file = "/home/u/proj/x_test.go" then some "x_test.go" else none,
   fun _ => none⟩

/-- Environment in which the current working directory cannot be obtained. -/
def envGetwdFail : Env :=
  ⟨fun _ => ⟨"/home/u/proj/x_test.go", 14, true⟩, none, fun _ _ => none, fun _ => none⟩

/-- Environment in which the caller's file path cannot be made relative to
the working directory. -/
def envRelFail : Env :=
  ⟨fun _ => ⟨"/other/x_test.go", 14, true⟩, some "/home/u/proj", fun _ _ => none, fun _ => none⟩

/-- Environment in which the requested depth exceeds the available stack:
`runtime.Caller` reports ok = false with an empty file and line 0. The
remaining effects succeed (the relativization accepts the empty path and the
empty path parses as an empty file), isolating what the resolver itself does
with the failed frame. -/
def envDepthExceeded : Env :=
  ⟨fun _ => ⟨"", 0, false⟩, some "/home/u/proj", fun _ f => some f, fun _ => some []⟩

/-- File whose call site reads `dataloc.L()` — the tracked lookup function
called with zero arguments — on line 14. -/
def fileC6 : File :=
  [.funcD
    [.assignS [.ident 10 "testcases" (some 1)] [tableAB],
     .rangeS (some (.ident 13 "_" none)) (some (.ident 13 "tc" (some 2)))
       (.ident 13 "testcases" (some 1))
       [.exprS (.call 14 (.selector 14 (.ident 14 "dataloc" none) "L") [])]]]

/-- Environment whose caller frame points at the zero-argument call of
`fileC6`. -/
def envC6 : Env :=
  ⟨fun _ => ⟨"/home/u/proj/x_test.go", 14, true⟩,
   some "/home/u/proj",
   fun cwd file =>
     if cwd = "/home/u/proj" ∧ file = "/home/u/proj/x_test.go" then some "x_test.go" else none,
   fun p => if p = "x_test.go" then some fileC6 else none⟩

/-- File with the same table and loop as `fileAB` but whose line-14 calls
spell the callee differently: `dataloc.L3(tc.name)`, a bare `L(tc.name)`, and
`dl.L(tc.name)` through a renamed import. -/
def fileC10 : File :=
  [.funcD
    [.assignS [.ident 10 "testcases" (some 1)] [tableAB],
     .rangeS (some (.ident 13 "_" none)) (some (.ident 13 "tc" (some 2)))
       (.ident 13 "testcases" (some 1))
       [.exprS (.call 14 (.selector 14 (.ident 14 "dataloc" none) "L3")
          [.selector 14 (.ident 14 "tc" (some 2)) "name"]),
        .exprS (.call 14 (.ident 14 "L" none)
          [.selector 14 (.ident 14 "tc" (some 2)) "name"]),
        .exprS (.call 14 (.selector 14 (.ident 14 "dl" none) "L")
          [.selector 14 (.ident 14 "tc" (some 2)) "name"])]]]

/-- Environment whose caller frame points at line 14 of `fileC10`. -/
def envC10 : Env :=
  ⟨fun _ => ⟨"/home/u/proj/x_test.go", 14, true⟩,
   some "/home/u/proj",
   fun cwd file =>
     if cwd = "/home/u/proj" ∧ file = "/home/u/proj/x_test.go" then some "x_test.go" else none,
   fun p => if p = "x_test.go" then some fileC10 else none⟩

/-- File with the declarations `var x = 42` and `var a, b = 1, 2`
(handles 5, 6 and 7), exercising the ValueSpec rule with equal counts of
names and initializers. -/
def fileVar : File :=
  [.genD (.varDecl [⟨[⟨"x", some 5⟩], [.basicLit 3 .int "42"]⟩]),
   .genD (.varDecl [⟨[⟨"a", some 6⟩, ⟨"b", some 7⟩],
                    [.basicLit 4 .int "1", .basicLit 4 .int "2"]⟩])]

/-- Struct type whose field list groups two names under one type:
`struct { a, b string; c int }`. -/
def groupedFields : Expr :=
  .structType 1 [([⟨"a", none⟩, ⟨"b", none⟩], .ident 1 "string" none),
                 ([⟨"c", none⟩], .ident 1 "int" none)]

/-- A second sample table literal, with a single entry named "p" on line 31. -/
def tableP : Expr :=
  .compositeLit 30
    (some (.arrayType 30 (.structType 30 [([⟨"name", none⟩], .ident 30 "string" none)])))
    [.compositeLit 31 none
      [.keyValue 31 (.ident 31 "name" none) (.basicLit 31 .string "\"p\"")]]

/-- File declaring, in two separate function scopes, range loops whose value
variables are both named "tc" but are distinct bindings (handles 11 and 21)
over distinct tables `t1` (handle 10) and `t2` (handle 20). -/
def fileShadow : File :=
  [.funcD
    [.assignS [.ident 20 "t1" (some 10)] [tableAB],
     .rangeS (some (.ident 21 "_" none)) (some (.ident 21 "tc" (some 11)))
       (.ident 21 "t1" (some 10)) []],
   .funcD
    [.assignS [.ident 30 "t2" (some 20)] [tableP],
     .rangeS (some (.ident 31 "_" none)) (some (.ident 31 "tc" (some 21)))
       (.ident 31 "t2" (some 20)) []]]

/-- The raw-string token of the Go literal whose source reads a back-quoted
"a" (one byte a between back-quotes). -/
def rawAtok : String := String.mk [Char.ofNat 96, 'a', Char.ofNat 96]

/-! Theorems. -/

/-- Every string the second traversal's assembly can produce is either the
miss sentinel "(unknown)" or a file:line rendering. -/
theorem inspectLocShape (fn : String) (tl : Nat) (v : String) (idx : Index)
    (f : File) (s : String) (h : inspectLoc fn tl v idx f = .ok s) :
    s = "(unknown)" ∨ ∃ (fname : String) (l : Nat), s = fname ++ ":" ++ toString l := by
  unfold inspectLoc at h
  split at h
  · cases h
  · left
    cases h
    rfl
  · right
    rename_i fname l _
    cases h
    exact ⟨fname, l, rfl⟩

/-- Every string `loc` returns without error is either "(unknown)" or a
file:line rendering. -/
theorem locOkShape (v : String) (st : Nat) (env : Env) (s : String)
    (h : loc v st env = .ok s) :
    s = "(unknown)" ∨ ∃ (fname : String) (l : Nat), s = fname ++ ":" ++ toString l := by
  unfold loc at h
  split at h
  · cases h
  · split at h
    · cases h
    · split at h
      · cases h
      · split at h
        · cases h
        · rename_i hins
          cases h
          exact inspectLocShape _ _ _ _ _ _ hins

/-- Claim C1 (corrected): the claim as written is false — infrastructural
failures make the public entry points return the empty string (the dropped
error leaves `s = ""`), while a semantic miss returns "(unknown)"; neither
equals the claimed single sentinel "unknown". This closed theorem exhibits
both at concrete inputs. -/
theorem C1_counterexample :
    (L "a" envParseFail = some "" ∧ "" ≠ "unknown") ∧
    (L "missing" envAB = some "(unknown)" ∧ "(unknown)" ≠ "unknown") :=
  ⟨⟨rfl, by decide⟩, ⟨rfl, by decide⟩⟩

/-- Claim C1 (amended): whenever a public entry point L, L3, L4, L5 or L6
returns a string, that string is the empty string (infrastructural failure),
the miss sentinel "(unknown)", or a "path:line" rendering — never any other
kind of value. -/
theorem C1_return_values (env : Env) (name s : String)
    (h : L name env = some s ∨ L3 name env = some s ∨ L4 name env = some s ∨
         L5 name env = some s ∨ L6 name env = some s) :
    s = "" ∨ s = "(unknown)" ∨ ∃ (fname : String) (l : Nat), s = fname ++ ":" ++ toString l := by
  have hstep : ∀ st, (match loc name st env with
      | .ok s' => some s'
      | .err _ => some ""
      | .panicked => none) = some s →
      s = "" ∨ s = "(unknown)" ∨ ∃ (fname : String) (l : Nat), s = fname ++ ":" ++ toString l := by
    intro st hm
    cases hc : loc name st env with
    | ok s2 =>
        have hs : s2 = s := by
          rw [hc] at hm
          injection hm
        rw [← hs]
        rcases locOkShape name st env s2 hc with h1 | h2
        · exact Or.inr (Or.inl h1)
        · exact Or.inr (Or.inr h2)
    | err e =>
        have hs : "" = s := by
          rw [hc] at hm
          injection hm
        exact Or.inl hs.symm
    | panicked =>
        rw [hc] at hm
        simp at hm
  rcases h with h | h | h | h | h
  · exact hstep 2 h
  · exact hstep 3 h
  · exact hstep 4 h
  · exact hstep 5 h
  · exact hstep 6 h

/-- Witness for C1: the amended theorem applied at a concrete environment in
which the key matches no entry. -/
theorem C1_return_values_witness :
    L "missing" envAB = some "(unknown)" ∧
    ("(unknown)" = "" ∨ "(unknown)" = "(unknown)" ∨
      ∃ (fname : String) (l : Nat), "(unknown)" = fname ++ ":" ++ toString l) :=
  ⟨rfl, C1_return_values envAB "missing" "(unknown)" (Or.inl rfl)⟩

/-- Claim C2 (code bug): on `var x = 42` (one declared name, one initializer;
binding handle 5) the builder records nothing, because the source guards the
write with `i < len(valueSpec.Values)-1`; on `var a, b = 1, 2` (handles 6, 7)
only the first name is paired and the last initializer is dropped. The claim
(and the spec's stated intent) requires positional pairing of every name. -/
theorem C2_var_init_dropped :
    (buildIndex fileVar).varInit.lookup (some 5) = none ∧
    (buildIndex fileVar).varInit.lookup (some 6) = some (.basicLit 4 .int "1") ∧
    (buildIndex fileVar).varInit.lookup (some 7) = none :=
  ⟨rfl, rfl, rfl⟩

/-- Claim C3 (code bug): on `struct { a, b string; c int }` the indexer
returns the index of the field group, not the position counting each
individual name: "c" gets 1 where the claim requires 2, and "a" and "b" —
two different fields — both get 0. The not-found sentinel -1 part holds. -/
theorem C3_group_position :
    findStructFieldIndex groupedFields "a" = 0 ∧
    findStructFieldIndex groupedFields "b" = 0 ∧
    findStructFieldIndex groupedFields "c" = 1 ∧
    findStructFieldIndex groupedFields "c" ≠ 2 ∧
    findStructFieldIndex groupedFields "zz" = -1 :=
  ⟨rfl, rfl, rfl, by decide, rfl⟩

/-- Claim C6 (code bug): a source file whose resolved line contains the call
`dataloc.L()` with zero arguments makes resolution panic (the source indexes
`call.Args[0]` unguarded), and the panic propagates through the public entry
point instead of degrading to the sentinel. -/
theorem C6_zero_arg_panic :
    loc "k" 2 envC6 = .panicked ∧ L "k" envC6 = none :=
  ⟨rfl, rfl⟩

/-- Claim C9 (confirmed): resolution is deterministic — two calls with an
identical (key, stackDepth, environment) triple, the environment carrying the
same source file content, return identical results. -/
theorem C9_deterministic (v1 v2 : String) (st1 st2 : Nat) (env1 env2 : Env)
    (hv : v1 = v2) (hst : st1 = st2) (henv : env1 = env2) :
    loc v1 st1 env1 = loc v2 st2 env2 := by
  subst hv
  subst hst
  subst henv
  rfl

/-- Witness for C9: the determinism theorem applied at a concrete triple. -/
theorem C9_deterministic_witness :
    loc "a" 2 envAB = loc "a" 2 envAB :=
  C9_deterministic "a" "a" 2 2 envAB envAB rfl rfl rfl

/-- Claim C4 (corrected): on the sample table the no-match result is the
string "(unknown)", not the claimed "unknown". -/
theorem C4_counterexample :
    L "missing" envAB = some "(unknown)" ∧ "(unknown)" ≠ "unknown" :=
  ⟨rfl, by decide⟩

/-- Claim C4 (amended): the entry loop scans entries in declaration order and
returns the first matching one, short-circuiting; on the two-entry sample
table, locate("a") yields the first entry's literal line, locate("b") the
second, and a key matching no entry yields "(unknown)". -/
theorem C4_first_match :
    (∀ (t : Expr) (k v : String) (pre : List Expr) (tc : Expr) (rest : List Expr) (n : Expr),
        (∀ e ∈ pre, entryMatch t k v e = none) → entryMatch t k v tc = some n →
        findInElts t k v (pre ++ tc :: rest) = some n) ∧
    L "a" envAB = some "x_test.go:11" ∧
    L "b" envAB = some "x_test.go:12" ∧
    L "missing" envAB = some "(unknown)" := by
  refine ⟨?_, rfl, rfl, rfl⟩
  intro t k v pre tc rest n hpre htc
  induction pre with
  | nil => simp [findInElts, htc]
  | cons e es ih =>
      have he : entryMatch t k v e = none := hpre e (by simp)
      simp only [List.cons_append, findInElts, he]
      exact ih (fun e2 h2 => hpre e2 (List.mem_cons_of_mem _ h2))

/-- Witness for C4: the first-match property applied to the sample table,
with the first entry not matching and the second matching. -/
theorem C4_first_match_witness :
    (∀ e ∈ [entryA], entryMatch ttypeAB "name" "b" e = none) ∧
    entryMatch ttypeAB "name" "b" entryB = some entryB ∧
    findInElts ttypeAB "name" "b" ([entryA] ++ entryB :: []) = some entryB := by
  refine ⟨?_, rfl, ?_⟩
  · intro e he
    rw [List.mem_singleton] at he
    subst he
    rfl
  · exact C4_first_match.1 ttypeAB "name" "b" [entryA] entryB [] entryB
      (fun e he => by rw [List.mem_singleton] at he; subst he; rfl) rfl

/-- The Go literal written with raw-string back-quotes around a single a. -/
def rawALit : Expr := .basicLit 20 .string rawAtok

/-- Claim C5 (confirmed): a string literal matches the sought key exactly
when its kind is STRING and its raw token equals the key rendered by the
host language's quoting rules; only basic literals ever match; and a
raw-quoted literal whose evaluated value equals the key but whose token
differs does not match. -/
theorem C5_token_match :
    (∀ (l : Nat) (kind : LitKind) (tok s : String),
        isStringLiteral (.basicLit l kind tok) s = true ↔
          (kind = LitKind.string ∧ tok = goQuote s)) ∧
    (∀ (e : Expr) (s : String), isStringLiteral e s = true →
        ∃ (l : Nat) (tok : String), e = .basicLit l LitKind.string tok ∧ tok = goQuote s) ∧
    (goUnquote rawAtok = some "a" ∧ isStringLiteral rawALit "a" = false) := by
  refine ⟨?_, ?_, ?_, ?_⟩
  · intro l kind tok s
    simp [isStringLiteral]
  · intro e s h
    cases e with
    | basicLit l kind tok =>
        simp only [isStringLiteral, Bool.and_eq_true, decide_eq_true_eq] at h
        exact ⟨l, tok, by rw [h.1], h.2⟩
    | ident a b c => simp [isStringLiteral] at h
    | selector a b c => simp [isStringLiteral] at h
    | compositeLit a b c => simp [isStringLiteral] at h
    | keyValue a b c => simp [isStringLiteral] at h
    | call a b c => simp [isStringLiteral] at h
    | arrayType a b => simp [isStringLiteral] at h
    | mapType a b c => simp [isStringLiteral] at h
    | structType a b => simp [isStringLiteral] at h
  · rfl
  · rfl

/-- Witness for C5: the only-token-match characterization applied to a
literal whose token is exactly the quoted rendering of the key. -/
theorem C5_token_match_witness :
    isStringLiteral (.basicLit 7 .string (goQuote "a")) "a" = true ∧
    ∃ (l : Nat) (tok : String),
      (.basicLit 7 LitKind.string (goQuote "a") : Expr) = .basicLit l LitKind.string tok ∧
      tok = goQuote "a" :=
  ⟨rfl, C5_token_match.2.1 (.basicLit 7 LitKind.string (goQuote "a")) "a" rfl⟩

/-- Claim C7 (corrected): the claim as written is false on two counts.
With a depth exceeding the stack (the frame's ok flag is false), `loc` does
not fail when the empty file path happens to relativize — the flag is
discarded, so no depth check exists; and on a working-directory failure the
public wrapper returns the empty string, not "unknown". -/
theorem C7_counterexample :
    ((envDepthExceeded.caller 2).ok = false ∧
     loc "k" 2 envDepthExceeded = .ok "(unknown)") ∧
    (L "k" envGetwdFail = some "" ∧ "" ≠ "unknown") :=
  ⟨⟨rfl, rfl⟩, ⟨rfl, by decide⟩⟩

/-- Claim C7 (amended): the resolver ignores the stack-capture success flag
(the result depends only on the frame's file and line and the other
effects); it fails with a propagated error exactly when the working
directory cannot be obtained or the caller's file path cannot be made
relative to it; and each public wrapper converts such a failure to the empty
string. -/
theorem C7_failure_propagation :
    (∀ (env env2 : Env) (v : String) (st : Nat),
        (env.caller st).file = (env2.caller st).file →
        (env.caller st).line = (env2.caller st).line →
        env.getwd = env2.getwd → env.rel = env2.rel → env.parseFile = env2.parseFile →
        loc v st env = loc v st env2) ∧
    (∀ (env : Env) (v : String) (st : Nat), env.getwd = none →
        loc v st env = .err .getwdErr) ∧
    (∀ (env : Env) (v : String) (st : Nat) (cwd : String), env.getwd = some cwd →
        env.rel cwd (env.caller st).file = none → loc v st env = .err .relErr) ∧
    (∀ (env : Env) (v : String), env.getwd = none →
        L v env = some "" ∧ L3 v env = some "" ∧ L4 v env = some "" ∧
        L5 v env = some "" ∧ L6 v env = some "") ∧
    (∀ (env : Env) (v cwd : String), env.getwd = some cwd →
        (∀ f2, env.rel cwd f2 = none) → L v env = some "") := by
  refine ⟨?_, ?_, ?_, ?_, ?_⟩
  · intro env env2 v st hf hl hg hr hp
    unfold loc
    rw [hg, hr, hp, hf, hl]
  · intro env v st hg
    unfold loc
    rw [hg]
  · intro env v st cwd hg hr
    unfold loc
    simp only [hg]
    rw [hr]
  · intro env v hg
    have hloc : ∀ st, loc v st env = .err .getwdErr := by
      intro st
      unfold loc
      rw [hg]
    refine ⟨?_, ?_, ?_, ?_, ?_⟩
    · unfold L
      rw [hloc 2]
    · unfold L3
      rw [hloc 3]
    · unfold L4
      rw [hloc 4]
    · unfold L5
      rw [hloc 5]
    · unfold L6
      rw [hloc 6]
  · intro env v cwd hg hr
    unfold L loc
    simp only [hg, hr]

/-- Witness for C7: the amended theorem's working-directory clause applied at
the concrete failing environment. -/
theorem C7_failure_propagation_witness :
    envGetwdFail.getwd = none ∧ loc "k" 2 envGetwdFail = .err .getwdErr :=
  ⟨rfl, C7_failure_propagation.2.1 envGetwdFail "k" 2 rfl⟩

/-- Claim C8 (confirmed): all four binding-index mappings are keyed by the
per-declaration object handle — writing a record for one handle never
changes the record read for a different handle, whatever the identifiers'
names — and on a file with two same-named loop variables in different
scopes, each binding's RangeValueSource is its own declaration's collection. -/
theorem C8_keyed_by_binding :
    (∀ (m : AMap) (k1 k2 : Option Nat) (v : Expr), k1 ≠ k2 →
        (m.insert k2 v).lookup k1 = m.lookup k1) ∧
    (buildIndex fileShadow).rangeValue.lookup (some 11) = some (.ident 21 "t1" (some 10)) ∧
    (buildIndex fileShadow).rangeValue.lookup (some 21) = some (.ident 31 "t2" (some 20)) := by
  refine ⟨?_, rfl, rfl⟩
  intro m k1 k2 v hne
  unfold AMap.insert AMap.lookup
  rw [List.find?_cons_of_neg]
  simp only [decide_eq_true_eq]
  exact fun he => hne he.symm

/-- Witness for C8: the handle-independence clause applied at two concrete
distinct handles. -/
theorem C8_keyed_by_binding_witness :
    (some 0 : Option Nat) ≠ some 1 ∧
    (AMap.insert [] (some 1) (.ident 0 "x" none)).lookup (some 0) =
      AMap.lookup [] (some 0) :=
  ⟨by decide, C8_keyed_by_binding.1 [] (some 0) (some 1) (.ident 0 "x" none) (by decide)⟩

/-- Inversion of `isSelector`: a successful result forces the node's shape. -/
theorem isSelector_shape (e : Expr) (nm : String) (o : Option Nat) (sl : String)
    (h : isSelector e = some (nm, o, sl)) :
    ∃ (l il : Nat), e = .selector l (.ident il nm o) sl := by
  unfold isSelector at h
  split at h
  · rename_i l il name obj sel
    simp only [Option.some.injEq, Prod.mk.injEq] at h
    obtain ⟨h1, h2, h3⟩ := h
    subst h1
    subst h2
    subst h3
    exact ⟨l, il, rfl⟩
  · simp at h

/-- Claim C10 (confirmed): the site matcher recognizes exactly the call
expressions whose callee is written as the selector dataloc.L; a call
spelled dataloc.L3, a bare L, or a renamed dl.L at the resolved line does
not match, so even a resolution entered through L3 yields the sentinel when
the frame's line holds no literal dataloc.L call. -/
theorem C10_only_selector_dataloc_L :
    (∀ (n : Expr), (isMethodCall n "dataloc" "L").isSome = true ↔
        ∃ (cl sl il : Nat) (o : Option Nat) (args : List Expr),
          n = .call cl (.selector sl (.ident il "dataloc" o) "L") args) ∧
    L3 "a" envC10 = some "(unknown)" ∧
    L "a" envC10 = some "(unknown)" := by
  refine ⟨?_, rfl, rfl⟩
  intro n
  constructor
  · intro h
    unfold isMethodCall at h
    split at h
    · rename_i cl f args
      cases hs : isSelector f with
      | none =>
          rw [hs] at h
          simp at h
      | some t =>
          obtain ⟨name, o, sel⟩ := t
          rw [hs] at h
          by_cases hcond : name = "dataloc" ∧ sel = "L"
          · obtain ⟨h1, h2⟩ := hcond
            subst h1
            subst h2
            obtain ⟨l2, il, hf⟩ := isSelector_shape f _ _ _ hs
            exact ⟨cl, l2, il, o, args, by rw [hf]⟩
          · simp [hcond] at h
    · simp at h
  · rintro ⟨cl, sl, il, o, args, hn⟩
    subst hn
    simp [isMethodCall, isSelector]

/-- Witness for C10: the characterization applied at a concrete
`dataloc.L(...)` call node. -/
theorem C10_only_selector_dataloc_L_witness :
    (isMethodCall (.call 14 (.selector 14 (.ident 14 "dataloc" none) "L") [])
      "dataloc" "L").isSome = true :=
  (C10_only_selector_dataloc_L.1 (.call 14 (.selector 14 (.ident 14 "dataloc" none) "L") [])).mpr
    ⟨14, 14, 14, none, [], rfl⟩

end Dataloc
